import Mathlib

set_option autoImplicit false

/-!
Verification model of the AxumSession repository (src/src/headers.rs and
src/src/session.rs).  Rust strings are modelled by their character scalar
sequences, byte buffers by `List Nat` with every element below 256, and
machine integers by `Nat`.  External crates (base64, aes-gcm, the DashMap
concurrent map, serde_json) are modelled by executable Lean functions that
follow their documented observable behaviour.
-/

namespace AxumSession

/-- `NONCE_LEN` constant from headers.rs: AES-GCM nonce length in bytes. -/
def NONCE_LEN : Nat := 12

/-- `TAG_LEN` constant from headers.rs: AES-GCM authentication tag length in bytes. -/
def TAG_LEN : Nat := 16

/-- `KEY_LEN` constant from headers.rs: AES-256 key length in bytes. -/
def KEY_LEN : Nat := 32

/-- Decode one character of the standard base64 alphabet to its 6-bit value;
`none` for any character outside the alphabet (including the pad `=`).
Models the decode table of the `base64` crate's STANDARD engine. -/
def charToSextet (c : Char) : Option Nat :=
  if 'A' ≤ c ∧ c ≤ 'Z' then some (c.toNat - 65)
  else if 'a' ≤ c ∧ c ≤ 'z' then some (c.toNat - 97 + 26)
  else if '0' ≤ c ∧ c ≤ '9' then some (c.toNat - 48 + 52)
  else if c = '+' then some 62
  else if c = '/' then some 63
  else none

/-- Encode a 6-bit value as a character of the standard base64 alphabet. -/
def sextetToChar (s : Nat) : Char :=
  if s < 26 then Char.ofNat (s + 65)
  else if s < 52 then Char.ofNat (s - 26 + 97)
  else if s < 62 then Char.ofNat (s - 52 + 48)
  else if s = 62 then '+'
  else '/'

/-- Standard base64 encoding with padding of a byte list
(`general_purpose::STANDARD.encode`). -/
def b64encode : List Nat → List Char
  | [] => []
  | [b0] => [sextetToChar (b0 / 4), sextetToChar (b0 % 4 * 16), '=', '=']
  | [b0, b1] =>
    [sextetToChar (b0 / 4), sextetToChar (b0 % 4 * 16 + b1 / 16),
     sextetToChar (b1 % 16 * 4), '=']
  | b0 :: b1 :: b2 :: rest =>
    sextetToChar (b0 / 4) :: sextetToChar (b0 % 4 * 16 + b1 / 16) ::
    sextetToChar (b1 % 16 * 4 + b2 / 64) :: sextetToChar (b2 % 64) :: b64encode rest

/-- Standard base64 decoding with canonical padding
(`general_purpose::STANDARD.decode`): input length must be a multiple of four,
padding only terminal, trailing bits must be zero; `none` on any violation. -/
def b64decode : List Char → Option (List Nat)
  | [] => some []
  | c0 :: c1 :: c2 :: c3 :: rest =>
    match charToSextet c0, charToSextet c1 with
    | some s0, some s1 =>
      if c2 = '=' then
        if c3 = '=' then
          if rest = [] then
            if s1 % 16 = 0 then some [s0 * 4 + s1 / 16] else none
          else none
        else none
      else
        match charToSextet c2 with
        | some s2 =>
          if c3 = '=' then
            if rest = [] then
              if s2 % 4 = 0 then some [s0 * 4 + s1 / 16, s1 % 16 * 16 + s2 / 4]
              else none
            else none
          else
            match charToSextet c3 with
            | some s3 =>
              match b64decode rest with
              | some bs =>
                some ((s0 * 4 + s1 / 16) :: (s1 % 16 * 16 + s2 / 4) ::
                      (s2 % 4 * 64 + s3) :: bs)
              | none => none
            | none => none
        | none => none
    | _, _ => none
  | _ => none

/-- Abstract model of the AES-256-CTR keystream byte at position `i` that
AES-GCM (external `aes_gcm` crate) XORs into the plaintext.  Any concrete
function of (key, nonce, position) into a byte reproduces the crate's
observable algebra: encryption XORs the keystream in, decryption XORs the
same keystream out. -/
def ksByte (key nonce : List Nat) (i : Nat) : Nat :=
  (key.sum * 3 + nonce.sum * 5 + i * 7 + 11) % 256

/-- XOR a buffer with the keystream starting at position `i`
(`encrypt_in_place_detached` body / the decryption direction — GCM's CTR
layer is its own inverse). -/
def sealCtAux (key nonce : List Nat) : Nat → List Nat → List Nat
  | _, [] => []
  | i, b :: rest => (b ^^^ ksByte key nonce i) :: sealCtAux key nonce (i + 1) rest

/-- CTR encryption/decryption of a whole buffer. -/
def sealCt (key nonce msg : List Nat) : List Nat := sealCtAux key nonce 0 msg

/-- Accumulator hash used by the model authentication tag. -/
def tagHash (l : List Nat) : Nat :=
  l.foldl (fun a b => (a * 131 + b + 7) % 2 ^ 128) 1

/-- Model of the 16-byte AES-GCM authentication tag: a deterministic
function of key, nonce, associated data and ciphertext (the crate's GHASH),
emitted as 16 bytes. -/
def tagF (key nonce aad ct : List Nat) : List Nat :=
  (List.range TAG_LEN).map
    (fun i => tagHash (key ++ 256 :: nonce ++ 256 :: aad ++ 256 :: ct) / 256 ^ i % 256)

/-- Model of `Aes256Gcm::decrypt` on a ciphertext‖tag buffer with associated
data `aad`: split the 16-byte tag off the end, recompute it over the
associated data and ciphertext, compare, and on success undo the CTR
keystream; `none` when the buffer is shorter than a tag or the tag does not
verify. -/
def aeadDecrypt (key nonce aad data : List Nat) : Option (List Nat) :=
  if data.length < TAG_LEN then none
  else if data.drop (data.length - TAG_LEN) =
      tagF key nonce aad (data.take (data.length - TAG_LEN)) then
    some (sealCt key nonce (data.take (data.length - TAG_LEN)))
  else none

/-- Model of the crate's `SessionError` enum (defined outside src/), restricted
to the variants reachable from `decrypt`: the `From<base64::DecodeError>`
conversion used by the `?` operator, the explicit
`GenericNotSupportedError` constructions, and the `From<FromUtf8Error>`
conversion. -/
inductive SessionError where
  | Base64DecodeError
  | GenericNotSupportedError (msg : String)
  | Utf8Error
  deriving DecidableEq

/-- `as_bytes` model: a Rust string is modelled by its character scalar
values (faithful byte-for-byte on the ASCII data — UUIDs, booleans, field
names — that this program transports). -/
def strBytes (s : String) : List Nat := s.data.map Char.toNat

/-- `String::from_utf8` model under the scalar-value representation. -/
def bytesStr (l : List Nat) : String := ⟨l.map Char.ofNat⟩

/-- `encrypt` from headers.rs: lay out `data = nonce ‖ ciphertext ‖ tag`
where the ciphertext is the AEAD encryption of `value` with the field
`name` bound as associated data, and return the base64 encoding.  The
random nonce drawn from `rand::thread_rng()` is passed explicitly. -/
def encrypt (name value : String) (key : List Nat) (nonce : List Nat) : String :=
  let val := strBytes value
  let in_out := sealCt key nonce val
  let tag := tagF key nonce (strBytes name) in_out
  ⟨b64encode (nonce ++ in_out ++ tag)⟩

/-- `decrypt` from headers.rs: base64-decode, fail when the decoded length
is not greater than `NONCE_LEN`, split off the nonce, AEAD-decrypt the rest
with the field `name` as associated data, and re-read the plaintext as a
string. -/
def decrypt (name : String) (value : String) (key : List Nat) :
    Except SessionError String :=
  match b64decode value.data with
  | none => .error .Base64DecodeError
  | some data =>
    if data.length ≤ NONCE_LEN then
      .error (.GenericNotSupportedError "length of decoded data is <= NONCE_LEN")
    else
      match aeadDecrypt key (data.take NONCE_LEN) (strBytes name)
          (data.drop NONCE_LEN) with
      | none => .error (.GenericNotSupportedError "invalid key/nonce/value: bad seal")
      | some pt => .ok (bytesStr pt)

/-! ## Session store and handle (src/src/session.rs) -/

/-- Session ids (`Uuid`): the DashMap in the store is keyed by
`uuid.to_string()`, which is injective on UUIDs, so keys are modelled by
the 128-bit id values themselves. -/
abbrev Uuid := Nat

/-- Modelled from the spec: the `AxumSessionData` record type is defined
outside src/.  §3 (SessionData) specifies a mapping from string keys to
JSON-serialized string values plus the flags `destroy`, `update`,
`storable`, `longterm` — exactly the fields session.rs reads and writes
(`sess.data`, `sess.destroy`, `sess.update`, `sess.storable`,
`sess.longterm`). -/
structure AxumSessionData where
  data : List (String × String)
  destroy : Bool
  update : Bool
  storable : Bool
  longterm : Bool
  deriving DecidableEq

/-- `HashMap::get` on the record's data map (association-list model). -/
def mapGet : List (String × String) → String → Option String
  | [], _ => none
  | (k', v') :: rest, k => if k' = k then some v' else mapGet rest k

/-- `HashMap::insert` (replaces the existing binding when present). -/
def mapInsert : List (String × String) → String → String → List (String × String)
  | [], k, v => [(k, v)]
  | (k', v') :: rest, k, v =>
    if k' = k then (k, v) :: rest else (k', v') :: mapInsert rest k v

/-- Drop every binding of a key (hash maps hold at most one binding per
key, so this is `HashMap::remove`'s effect on the map). -/
def mapDrop : List (String × String) → String → List (String × String)
  | [], _ => []
  | (k', v') :: rest, k =>
    if k' = k then mapDrop rest k else (k', v') :: mapDrop rest k

/-- `HashMap::remove`, returning the removed value and the map without the
key. -/
def mapRemove (m : List (String × String)) (k : String) :
    Option String × List (String × String) :=
  (mapGet m k, mapDrop m k)

/-- The session store's concurrent map (`store.inner`, a DashMap). -/
abbrev Store := List (Uuid × AxumSessionData)

/-- `DashMap::get`/`get_mut` lookup on the store. -/
def storeGet : Store → Uuid → Option AxumSessionData
  | [], _ => none
  | (i, d) :: rest, sid => if i = sid then some d else storeGet rest sid

/-- Commit of an in-place mutation through `get_mut`: replace the record
stored under the id. -/
def storeSet : Store → Uuid → AxumSessionData → Store
  | [], _, _ => []
  | (i, d) :: rest, sid, d' =>
    if i = sid then (i, d') :: rest else (i, d) :: storeSet rest sid d'

/-- `AxumSession::tap`: look up the record by id; when present, run the
caller's transform on the mutable record and return its result; when
absent, log a warning (the Boolean component) and yield `none`, leaving
the store unchanged. -/
def tap {α : Type} (store : Store) (sid : Uuid)
    (func : AxumSessionData → Option α × AxumSessionData) :
    Option α × Store × Bool :=
  match storeGet store sid with
  | some inst => ((func inst).1, storeSet store sid (func inst).2, false)
  | none => (none, store, true)

/-- `AxumSession::destroy`: set the destroy flag on the record. -/
def destroy (store : Store) (sid : Uuid) : Option Nat × Store × Bool :=
  tap store sid fun sess => (some 1, { sess with destroy := true })

/-- `AxumSession::set_longterm`: set the longterm flag and mark dirty. -/
def set_longterm (store : Store) (sid : Uuid) (longterm : Bool) :
    Option Nat × Store × Bool :=
  tap store sid fun sess => (some 1, { sess with longterm := longterm, update := true })

/-- `AxumSession::set_store`: set the storable flag and mark dirty. -/
def set_store (store : Store) (sid : Uuid) (storable : Bool) :
    Option Nat × Store × Bool :=
  tap store sid fun sess => (some 1, { sess with storable := storable, update := true })

/-- `AxumSession::get`: read the serialized string at `key` and
deserialize it; `deser` is `serde_json::from_str` with `.ok()` applied. -/
def get {α : Type} (deser : String → Option α) (store : Store) (sid : Uuid)
    (key : String) : Option α × Store × Bool :=
  tap store sid fun sess => ((mapGet sess.data key).bind deser, sess)

/-- `AxumSession::get_remove`: remove the entry at `key` and deserialize
the removed string in the same locked operation. -/
def get_remove {α : Type} (deser : String → Option α) (store : Store) (sid : Uuid)
    (key : String) : Option α × Store × Bool :=
  tap store sid fun sess =>
    ((mapRemove sess.data key).1.bind deser,
     { sess with data := (mapRemove sess.data key).2 })

/-- `AxumSession::set`: `value` is the `serde_json::to_string`
serialization of the caller's value (with the `unwrap_or` of the empty
string already applied); write and mark dirty only when it differs from
the stored serialization. -/
def set (store : Store) (sid : Uuid) (key value : String) :
    Option Nat × Store × Bool :=
  tap store sid fun sess =>
    (some 1,
     if ¬ mapGet sess.data key = some value then
       { sess with data := mapInsert sess.data key value, update := true }
     else sess)

/-- `AxumSession::remove`: mark dirty and delete the entry. -/
def remove (store : Store) (sid : Uuid) (key : String) :
    Option String × Store × Bool :=
  tap store sid fun sess =>
    ((mapRemove sess.data key).1,
     { sess with update := true, data := (mapRemove sess.data key).2 })

/-- The collision-avoidance loop of `AxumSession::new`: the successive
draws of `Uuid::new_v4()` are the stream `rng`, and the loop returns the
first draw whose key is absent from the store's map. -/
def freshUuid (store : Store) (rng : Nat → Uuid)
    (h : ∃ k, storeGet store (rng k) = none) : Uuid :=
  rng (Nat.find h)

/-- `AxumSession::new`: `value` is the inbound cookie value after
verification by `get_cookie` and `Uuid::parse_str` (lines 51-54 collapsed);
when it resolved it is used directly, otherwise the generation loop runs. -/
def new (store : Store) (value : Option Uuid) (rng : Nat → Uuid)
    (h : ∃ k, storeGet store (rng k) = none) : Uuid :=
  match value with
  | some v => v
  | none => freshUuid store rng h

/-- Sample record used by the concrete witnesses below. -/
def sampleData : AxumSessionData :=
  { data := [("k", "v")], destroy := false, update := false,
    storable := false, longterm := false }

/-- Sample one-record store used by the concrete witnesses below. -/
def sampleStore : Store := [(1, sampleData)]

/-! ## Transport codec (src/src/headers.rs, `set_headers` and cookie builders) -/

/-- `SecurityMode` from the crate's config (outside src/, but fully
determined by its use in headers.rs: a two-variant enum). -/
inductive SecurityMode where
  | PerSession
  | Simple
  deriving DecidableEq

/-- `cookie::SameSite` attribute values from the cookie crate. -/
inductive SameSite where
  | Strict
  | Lax
  | None
  deriving DecidableEq

/-- Modelled from the spec: `SessionMode` is defined outside src/;
headers.rs only calls `is_opt_in()`, and §3 specifies the opt-in policy
flag, so the model keeps the queried Boolean. -/
structure SessionMode where
  is_opt_in : Bool
  deriving DecidableEq

/-- The `SessionConfig` fields read by headers.rs; `key` is the optional
`cookie::Key` material, modelled as its byte list.  `host_locking` models
the `prefix_with_host` toggle (renamed: the original name starts with a
Lean notation keyword). -/
structure SessionConfig where
  session_name : String
  store_name : String
  key_name : String
  host_locking : Bool
  cookie_path : String
  cookie_secure : Bool
  cookie_http_only : Bool
  cookie_same_site : SameSite
  cookie_domain : Option String
  cookie_max_age : Option Nat
  security_mode : SecurityMode
  session_mode : SessionMode
  key : Option (List Nat)
  deriving DecidableEq

/-- `NameType` from headers.rs: which logical transport field. -/
inductive NameType where
  | Store
  | Data
  | Key
  deriving DecidableEq

/-- `NameType::get_name`: the configured name of the field, with the
"__Host-" marker prepended when host locking is enabled. -/
def NameType.get_name (t : NameType) (config : SessionConfig) : String :=
  let name :=
    match t with
    | NameType.Data => config.session_name
    | NameType.Store => config.store_name
    | NameType.Key => config.key_name
  if config.host_locking then "__Host-" ++ name else name

/-- `bool::to_string`. -/
def boolString (b : Bool) : String := if b then "true" else "false"

/-- Model of a built `cookie::Cookie`: exactly the attributes
`create_cookie`/`remove_cookie` set.  `expires` is an absolute timestamp;
`removal` records that `make_removal()` was applied (empty value and
immediate expiry in the past). -/
structure MCookie where
  name : String
  value : String
  path : String
  secure : Option Bool
  http_only : Bool
  same_site : SameSite
  domain : Option String
  expires : Option Nat
  removal : Bool
  deriving DecidableEq

/-- `create_cookie` from headers.rs: a session cookie carrying the
configured path, secure, http-only, same-site and domain attributes;
expiry is `now` plus the configured max age when one is set. -/
def create_cookie (config : SessionConfig) (value : String) (cookie_type : NameType)
    (now : Nat) : MCookie :=
  { name := cookie_type.get_name config
    value := value
    path := config.cookie_path
    secure := some config.cookie_secure
    http_only := config.cookie_http_only
    same_site := config.cookie_same_site
    domain := config.cookie_domain
    expires := config.cookie_max_age.map (fun d => now + d)
    removal := false }

/-- `remove_cookie` from headers.rs: the tombstone cookie — empty value,
no secure attribute, same-site forced to `None` regardless of the
configured policy, domain preserved (the duplicated `if let` in the source
sets it twice to the same value), then `make_removal()`. -/
def remove_cookie (config : SessionConfig) (cookie_type : NameType) : MCookie :=
  { name := cookie_type.get_name config
    value := ""
    path := config.cookie_path
    secure := none
    http_only := config.cookie_http_only
    same_site := SameSite.None
    domain := config.cookie_domain
    expires := none
    removal := true }

/-- `set_headers` (cookie variant, `not(feature = "rest_mode")`): the
cookies added to the fresh response jar, in source order — per-session Key
cookie, session id Data cookie, storable-flag Store cookie — each paired
with the key `add_cookie` seals it with.  `session_id` and
`session_key_id` are `session.id.inner()` and `session_key.id.inner()`,
`session_key_key` is `session_key.key`, and `now` dates the created
cookies' expiry. -/
def set_headers_cookies (config : SessionConfig) (session_id session_key_id : String)
    (session_key_key : List Nat) (destroy storable : Bool) (now : Nat) :
    List (MCookie × Option (List Nat)) :=
  let keyPair : MCookie × Option (List Nat) :=
    match config.security_mode with
    | SecurityMode.PerSession =>
      if (storable || !config.session_mode.is_opt_in) && !destroy then
        (create_cookie config session_key_id NameType.Key now, config.key)
      else
        (remove_cookie config NameType.Key, config.key)
    | SecurityMode.Simple => (remove_cookie config NameType.Key, config.key)
  let cookie_key : Option (List Nat) :=
    match config.security_mode with
    | SecurityMode.PerSession => some session_key_key
    | SecurityMode.Simple => config.key
  let dataPair : MCookie × Option (List Nat) :=
    if (storable || !config.session_mode.is_opt_in) && !destroy then
      (create_cookie config session_id NameType.Data now, cookie_key)
    else
      (remove_cookie config NameType.Data, cookie_key)
  let storePair : MCookie × Option (List Nat) :=
    if config.session_mode.is_opt_in && storable && !destroy then
      (create_cookie config (boolString storable) NameType.Store now, cookie_key)
    else
      (remove_cookie config NameType.Store, cookie_key)
  [keyPair, dataPair, storePair]

/-- `set_headers` (header variant, `feature = "rest_mode"`): the header
entries inserted into the response map, in source order; a field that is
not created is simply not emitted.  Values are sealed with `encrypt` when
a key is available (`config.key` for the Key header, the per-session or
configured key for Data and Store), otherwise sent raw; the three nonces
are the random values drawn inside the `encrypt` calls.  Configured names
are assumed header-compatible (the `HeaderName::from_bytes` /
`HeaderValue::from_str` guards accept them). -/
def set_headers_rest (config : SessionConfig) (session_id session_key_id : String)
    (session_key_key : List Nat) (destroy storable : Bool)
    (nonce_key nonce_data nonce_store : List Nat) : List (String × String) :=
  let keyHeaders : List (String × String) :=
    match config.security_mode with
    | SecurityMode.PerSession =>
      if (storable || !config.session_mode.is_opt_in) && !destroy then
        let name := NameType.Key.get_name config
        let value :=
          match config.key with
          | some key => encrypt name session_key_id key nonce_key
          | none => session_key_id
        [(name, value)]
      else []
    | SecurityMode.Simple => []
  let cookie_key : Option (List Nat) :=
    match config.security_mode with
    | SecurityMode.PerSession => some session_key_key
    | SecurityMode.Simple => config.key
  let dataHeaders : List (String × String) :=
    if (storable || !config.session_mode.is_opt_in) && !destroy then
      let name := NameType.Data.get_name config
      let value :=
        match cookie_key with
        | some key => encrypt name session_id key nonce_data
        | none => session_id
      [(name, value)]
    else []
  let storeHeaders : List (String × String) :=
    if config.session_mode.is_opt_in && storable && !destroy then
      let name := NameType.Store.get_name config
      let value :=
        match cookie_key with
        | some key => encrypt name (boolString storable) key nonce_store
        | none => boolString storable
      [(name, value)]
    else []
  keyHeaders ++ dataHeaders ++ storeHeaders

/-- The spec's emission decision table (§4.3), Data/Key column, written
from the spec's rows: CREATE exactly when not destroyed and (opt-in is off
or the session is storable). -/
def specEmitDataKey (destroy opt_in storable : Bool) : Bool :=
  !destroy && (!opt_in || storable)

/-- The spec's emission decision table (§4.3), Store column, written from
the spec's rows: CREATE exactly when not destroyed, opt-in is on, and the
session is storable. -/
def specEmitStore (destroy opt_in storable : Bool) : Bool :=
  !destroy && opt_in && storable

theorem charToSextet_sextetToChar_fin :
    ∀ s : Fin 64, charToSextet (sextetToChar s.val) = some s.val := by decide

theorem sextetToChar_ne_pad_fin : ∀ s : Fin 64, ¬ sextetToChar s.val = '=' := by decide

theorem charToSextet_sextetToChar (s : Nat) (h : s < 64) :
    charToSextet (sextetToChar s) = some s :=
  charToSextet_sextetToChar_fin ⟨s, h⟩

theorem sextetToChar_ne_pad (s : Nat) (h : s < 64) : ¬ sextetToChar s = '=' :=
  sextetToChar_ne_pad_fin ⟨s, h⟩

/-- Base64 round trip: decoding an encoding of a byte list gives it back. -/
theorem b64decode_b64encode :
    ∀ l : List Nat, (∀ b ∈ l, b < 256) → b64decode (b64encode l) = some l
  | [], _ => rfl
  | [b0], h => by
    have hb0 : b0 < 256 := h b0 (by simp)
    have h0 : b0 / 4 < 64 := by omega
    have h1 : b0 % 4 * 16 < 64 := by omega
    simp only [b64encode, b64decode, charToSextet_sextetToChar _ h0,
      charToSextet_sextetToChar _ h1]
    simp only [if_pos rfl, Nat.mul_mod_left, if_pos (Eq.refl ([] : List Char))]
    simp only [ite_true]
    congr 1
    have : b0 / 4 * 4 + b0 % 4 * 16 / 16 = b0 := by omega
    rw [this]
  | [b0, b1], h => by
    have hb0 : b0 < 256 := h b0 (by simp)
    have hb1 : b1 < 256 := h b1 (by simp)
    have h0 : b0 / 4 < 64 := by omega
    have h1 : b0 % 4 * 16 + b1 / 16 < 64 := by omega
    have h2 : b1 % 16 * 4 < 64 := by omega
    simp only [b64encode, b64decode, charToSextet_sextetToChar _ h0,
      charToSextet_sextetToChar _ h1, charToSextet_sextetToChar _ h2]
    rw [if_neg (sextetToChar_ne_pad _ h2)]
    simp only [if_pos rfl, Nat.mul_mod_left, if_pos (Eq.refl ([] : List Char))]
    simp only [ite_true]
    congr 1
    have e0 : b0 / 4 * 4 + (b0 % 4 * 16 + b1 / 16) / 16 = b0 := by omega
    have e1 : (b0 % 4 * 16 + b1 / 16) % 16 * 16 + b1 % 16 * 4 / 4 = b1 := by omega
    rw [e0, e1]
  | b0 :: b1 :: b2 :: rest, h => by
    have hb0 : b0 < 256 := h b0 (by simp)
    have hb1 : b1 < 256 := h b1 (by simp)
    have hb2 : b2 < 256 := h b2 (by simp)
    have ih : b64decode (b64encode rest) = some rest :=
      b64decode_b64encode rest (fun b hb => h b (by simp [hb]))
    have h0 : b0 / 4 < 64 := by omega
    have h1 : b0 % 4 * 16 + b1 / 16 < 64 := by omega
    have h2 : b1 % 16 * 4 + b2 / 64 < 64 := by omega
    have h3 : b2 % 64 < 64 := by omega
    simp only [b64encode, b64decode, charToSextet_sextetToChar _ h0,
      charToSextet_sextetToChar _ h1, charToSextet_sextetToChar _ h2,
      charToSextet_sextetToChar _ h3]
    rw [if_neg (sextetToChar_ne_pad _ h2), if_neg (sextetToChar_ne_pad _ h3)]
    rw [ih]
    have e0 : b0 / 4 * 4 + (b0 % 4 * 16 + b1 / 16) / 16 = b0 := by omega
    have e1 : (b0 % 4 * 16 + b1 / 16) % 16 * 16 + (b1 % 16 * 4 + b2 / 64) / 4 = b1 := by
      omega
    have e2 : (b1 % 16 * 4 + b2 / 64) % 4 * 64 + b2 % 64 = b2 := by omega
    rw [e0, e1, e2]

theorem sealCtAux_length (key nonce : List Nat) :
    ∀ (i : Nat) (msg : List Nat), (sealCtAux key nonce i msg).length = msg.length
  | _, [] => rfl
  | i, _ :: rest => by simp [sealCtAux, sealCtAux_length key nonce (i + 1) rest]

theorem sealCtAux_involutive (key nonce : List Nat) :
    ∀ (i : Nat) (msg : List Nat), sealCtAux key nonce i (sealCtAux key nonce i msg) = msg
  | _, [] => rfl
  | i, b :: rest => by
    simp [sealCtAux, sealCtAux_involutive key nonce (i + 1) rest, Nat.xor_assoc]

theorem sealCtAux_lt (key nonce : List Nat) :
    ∀ (i : Nat) (msg : List Nat), (∀ b ∈ msg, b < 256) →
      ∀ b ∈ sealCtAux key nonce i msg, b < 256
  | _, [], _ => by simp [sealCtAux]
  | i, b :: rest, h => by
    simp only [sealCtAux, List.mem_cons, forall_eq_or_imp]
    refine ⟨?_, sealCtAux_lt key nonce (i + 1) rest (fun x hx => h x (by simp [hx]))⟩
    have hb : b < 256 := h b (by simp)
    have hk : ksByte key nonce i < 256 := Nat.mod_lt _ (by omega)
    have : (256 : Nat) = 2 ^ 8 := by norm_num
    rw [this] at hb hk ⊢
    exact Nat.xor_lt_two_pow hb hk

theorem tagF_lt (key nonce aad ct : List Nat) : ∀ b ∈ tagF key nonce aad ct, b < 256 := by
  intro b hb
  simp only [tagF, List.mem_map] at hb
  obtain ⟨i, _, rfl⟩ := hb
  exact Nat.mod_lt _ (by omega)

theorem tagF_length (key nonce aad ct : List Nat) :
    (tagF key nonce aad ct).length = TAG_LEN := by simp [tagF]

theorem bytesStr_strBytes (s : String) : bytesStr (strBytes s) = s := by
  cases s with
  | mk data =>
    simp only [bytesStr, strBytes, List.map_map]
    congr 1
    induction data with
    | nil => rfl
    | cons c cs ih => simp [ih]

/-- The AEAD model accepts a buffer laid out as `ciphertext ‖ tag` when the
tag was computed over the same key, nonce and associated data. -/
theorem aeadDecrypt_seal (key nonce aad ct : List Nat) :
    aeadDecrypt key nonce aad (ct ++ tagF key nonce aad ct) =
      some (sealCt key nonce ct) := by
  have hlen : (ct ++ tagF key nonce aad ct).length = ct.length + TAG_LEN := by
    simp [tagF_length]
  unfold aeadDecrypt
  rw [hlen, Nat.add_sub_cancel]
  rw [if_neg (by omega)]
  rw [List.take_left' rfl, List.drop_left' rfl]
  rw [if_pos rfl]

/-- Unfolding of `decrypt` on an input whose base64 decoding succeeds with
more than `NONCE_LEN` bytes. -/
theorem decrypt_eq_of_decode (name value : String) (key data : List Nat)
    (hdec : b64decode value.data = some data) (hlen : ¬ data.length ≤ NONCE_LEN) :
    decrypt name value key =
      match aeadDecrypt key (data.take NONCE_LEN) (strBytes name)
          (data.drop NONCE_LEN) with
      | none => .error (.GenericNotSupportedError "invalid key/nonce/value: bad seal")
      | some pt => .ok (bytesStr pt) := by
  unfold decrypt
  split
  · simp_all
  · rename_i data' hdata'
    rw [hdec] at hdata'
    cases hdata'
    rw [if_neg hlen]

/--
C1: for every field name, plaintext string, and 256-bit key, decrypting the
envelope produced by `encrypt` with the same field name and key returns the
original plaintext (the nonce stands for the random value drawn inside
`encrypt`; plaintext characters are single-byte, matching the ASCII values
the program seals).
-/
theorem encrypt_decrypt_roundtrip (name value : String) (key nonce : List Nat)
    (_hkey : key.length = KEY_LEN) (hnlen : nonce.length = NONCE_LEN)
    (hnb : ∀ b ∈ nonce, b < 256) (hv : ∀ c ∈ value.data, c.toNat < 256) :
    decrypt name (encrypt name value key nonce) key = .ok value := by
  have hvb : ∀ b ∈ strBytes value, b < 256 := by
    intro b hb
    simp only [strBytes, List.mem_map] at hb
    obtain ⟨c, hc, rfl⟩ := hb
    exact hv c hc
  set val := strBytes value with hval
  set ct := sealCt key nonce val with hct
  set tag := tagF key nonce (strBytes name) ct with htag
  have hctb : ∀ b ∈ ct, b < 256 := sealCtAux_lt key nonce 0 val hvb
  have hdatab : ∀ b ∈ nonce ++ (ct ++ tag), b < 256 := by
    intro b hb
    simp only [List.mem_append] at hb
    rcases hb with hb | hb | hb
    · exact hnb b hb
    · exact hctb b hb
    · exact tagF_lt key nonce (strBytes name) ct b hb
  have hctlen : ct.length = val.length := sealCtAux_length key nonce 0 val
  have htaglen : tag.length = TAG_LEN := tagF_length key nonce (strBytes name) ct
  have henc : (encrypt name value key nonce).data = b64encode (nonce ++ (ct ++ tag)) := by
    show b64encode (nonce ++ ct ++ tag) = b64encode (nonce ++ (ct ++ tag))
    rw [List.append_assoc]
  have hdec : b64decode (encrypt name value key nonce).data =
      some (nonce ++ (ct ++ tag)) := by
    rw [henc]
    exact b64decode_b64encode _ hdatab
  have hlen : (nonce ++ (ct ++ tag)).length = NONCE_LEN + (val.length + TAG_LEN) := by
    simp [hnlen, hctlen, htaglen]
  rw [decrypt_eq_of_decode name _ key (nonce ++ (ct ++ tag)) hdec
    (by rw [hlen]; simp [NONCE_LEN, TAG_LEN])]
  rw [List.take_left' hnlen, List.drop_left' hnlen]
  rw [aeadDecrypt_seal]
  have hinv : sealCt key nonce ct = val := sealCtAux_involutive key nonce 0 val
  rw [hinv, hval]
  show Except.ok (bytesStr (strBytes value)) = Except.ok value
  rw [bytesStr_strBytes]

/--
C1 witness: a concrete round trip through `encrypt` and `decrypt` with field
name "sid", plaintext "abc", an all-zero 32-byte key and a concrete 12-byte
nonce.
-/
theorem encrypt_decrypt_roundtrip_witness :
    decrypt "sid" (encrypt "sid" "abc" (List.replicate 32 0) (List.replicate 12 7))
      (List.replicate 32 0) = .ok "abc" :=
  encrypt_decrypt_roundtrip "sid" "abc" (List.replicate 32 0) (List.replicate 12 7)
    (by decide) (by decide) (by decide) (by decide)

/--
C5: whenever the base64 decoding of the input succeeds but yields at most
`NONCE_LEN = 12` bytes, `decrypt` returns the length-check error value (the
spec taxonomy's `DecodeError`; concretely
`SessionError::GenericNotSupportedError`), not a panic. -/
theorem decrypt_short_input (name value : String) (key : List Nat) (data : List Nat)
    (hdec : b64decode value.data = some data) (hlen : data.length ≤ NONCE_LEN) :
    decrypt name value key =
      .error (.GenericNotSupportedError "length of decoded data is <= NONCE_LEN") := by
  unfold decrypt
  split
  · simp_all
  · rename_i data' hdata'
    rw [hdec] at hdata'
    cases hdata'
    rw [if_pos hlen]

/--
C5 witness: the 16-character base64 input decoding to ten zero bytes
(decoded length 10 ≤ 12) makes `decrypt` return the error value.
-/
theorem decrypt_short_input_witness :
    decrypt "sid" "AAAAAAAAAAAAAA==" (List.replicate 32 0) =
      .error (.GenericNotSupportedError "length of decoded data is <= NONCE_LEN") :=
  decrypt_short_input "sid" "AAAAAAAAAAAAAA==" (List.replicate 32 0)
    (List.replicate 10 0) (by decide) (by decide)

theorem tap_some {α : Type} (store : Store) (sid : Uuid) (d : AxumSessionData)
    (f : AxumSessionData → Option α × AxumSessionData)
    (h : storeGet store sid = some d) :
    tap store sid f = ((f d).1, storeSet store sid (f d).2, false) := by
  unfold tap
  rw [h]

theorem tap_none {α : Type} (store : Store) (sid : Uuid)
    (f : AxumSessionData → Option α × AxumSessionData)
    (h : storeGet store sid = none) :
    tap store sid f = (none, store, true) := by
  unfold tap
  rw [h]

theorem storeSet_self : ∀ (store : Store) (sid : Uuid) (d : AxumSessionData),
    storeGet store sid = some d → storeSet store sid d = store
  | [], _, _, _ => rfl
  | (i, d0) :: rest, sid, d, h => by
    by_cases hi : i = sid
    · simp only [storeGet, if_pos hi] at h
      cases h
      simp [storeSet, if_pos hi]
    · simp only [storeGet, if_neg hi] at h
      simp [storeSet, if_neg hi, storeSet_self rest sid d h]

theorem storeGet_storeSet_self : ∀ (store : Store) (sid : Uuid) (d d' : AxumSessionData),
    storeGet store sid = some d → storeGet (storeSet store sid d') sid = some d'
  | [], _, _, _, h => by simp [storeGet] at h
  | (i, d0) :: rest, sid, d, d', h => by
    by_cases hi : i = sid
    · simp [storeSet, storeGet, if_pos hi]
    · simp only [storeGet, if_neg hi] at h
      simp [storeSet, storeGet, if_neg hi, storeGet_storeSet_self rest sid d d' h]

theorem mapGet_mapInsert_self : ∀ (m : List (String × String)) (k v : String),
    mapGet (mapInsert m k v) k = some v
  | [], _, _ => by simp [mapInsert, mapGet]
  | (k', v') :: rest, k, v => by
    by_cases hk : k' = k
    · simp [mapInsert, mapGet, if_pos hk]
    · simp [mapInsert, mapGet, if_neg hk, mapGet_mapInsert_self rest k v]

theorem mapGet_mapDrop_self : ∀ (m : List (String × String)) (k : String),
    mapGet (mapDrop m k) k = none
  | [], _ => rfl
  | (k', v') :: rest, k => by
    by_cases hk : k' = k
    · simp [mapDrop, if_pos hk, mapGet_mapDrop_self rest k]
    · simp [mapDrop, if_neg hk, mapGet, mapGet_mapDrop_self rest k]

theorem mapDrop_of_mapGet_none : ∀ (m : List (String × String)) (k : String),
    mapGet m k = none → mapDrop m k = m
  | [], _, _ => rfl
  | (k', v') :: rest, k, h => by
    by_cases hk : k' = k
    · simp [mapGet, if_pos hk] at h
    · simp only [mapGet, if_neg hk] at h
      simp [mapDrop, if_neg hk, mapDrop_of_mapGet_none rest k h]

/--
C4 counterexample: the store holds only a record for id 5; the verified
inbound id 7 has no record in the map, so by the claim a new id would be
generated (the generator's first fresh draw is 9) and used — but
`AxumSession::new` returns the inbound id 7 itself, without consulting the
map and without running the generator.
-/
theorem new_reuses_absent_inbound_id :
    new [((5 : Uuid), sampleData)] (some 7) (fun _ => 9) ⟨0, rfl⟩ = 7 ∧
    storeGet [((5 : Uuid), sampleData)] 7 = none ∧
    freshUuid [((5 : Uuid), sampleData)] (fun _ => 9) ⟨0, rfl⟩ = 9 ∧
    ¬ (7 : Uuid) = 9 := by
  refine ⟨rfl, by decide, rfl, by decide⟩

/--
C4 (amended): if the inbound session id was verified and parsed, it is
reused unconditionally (whether or not a record with that id exists in the
map); only when no inbound id resolves is a new random id generated,
retrying until it is absent from the map — so the generator never returns
an id already present.  (This constructor inserts no record; record
insertion happens outside src/.)
-/
theorem new_spec (store : Store) (value : Option Uuid) (rng : Nat → Uuid)
    (h : ∃ k, storeGet store (rng k) = none) :
    (∀ v, value = some v → new store value rng h = v) ∧
    (value = none → storeGet store (new store value rng h) = none) := by
  constructor
  · rintro v rfl
    rfl
  · rintro rfl
    exact Nat.find_spec h

/--
C4 witness: concrete instantiation of `new_spec` on the empty store with a
resolved inbound id.
-/
theorem new_spec_witness :
    new ([] : Store) (some 7) (fun _ => 3) ⟨0, rfl⟩ = 7 :=
  (new_spec [] (some 7) (fun _ => 3) ⟨0, rfl⟩).1 7 rfl

theorem set_eq_noop (store : Store) (sid : Uuid) (key value : String)
    (d : AxumSessionData) (h : storeGet store sid = some d)
    (hk : mapGet d.data key = some value) :
    set store sid key value = (some 1, store, false) := by
  unfold set
  rw [tap_some store sid d _ h]
  simp only
  rw [if_neg (not_not_intro hk)]
  rw [storeSet_self store sid d h]

/--
C6: when the stored serialization at `key` already equals the new one,
`set` leaves the whole store (data map and dirty flag included) unchanged;
a differing first call writes the value and sets the dirty flag, and the
second call with the same value is a no-op on the store.
-/
theorem set_noop_spec (store : Store) (sid : Uuid) (key value : String)
    (d : AxumSessionData) (h : storeGet store sid = some d) :
    (mapGet d.data key = some value → set store sid key value = (some 1, store, false)) ∧
    (¬ mapGet d.data key = some value →
      storeGet (set store sid key value).2.1 sid =
        some { d with data := mapInsert d.data key value, update := true }) ∧
    set (set store sid key value).2.1 sid key value =
      (some 1, (set store sid key value).2.1, false) := by
  refine ⟨fun hk => set_eq_noop store sid key value d h hk, ?_, ?_⟩
  · intro hk
    unfold set
    rw [tap_some store sid d _ h]
    simp only
    rw [if_pos hk]
    exact storeGet_storeSet_self store sid d _ h
  · by_cases hk : mapGet d.data key = some value
    · rw [set_eq_noop store sid key value d h hk]
      exact set_eq_noop store sid key value d h hk
    · have hstep : set store sid key value =
          (some 1,
           storeSet store sid { d with data := mapInsert d.data key value, update := true },
           false) := by
        unfold set
        rw [tap_some store sid d _ h]
        simp only
        rw [if_pos hk]
      rw [hstep]
      simp only
      exact set_eq_noop _ sid key value _
        (storeGet_storeSet_self store sid d _ h)
        (mapGet_mapInsert_self d.data key value)

/--
C6 witness: setting the already-stored serialization leaves the sample
store untouched.
-/
theorem set_noop_spec_witness :
    set sampleStore 1 "k" "v" = (some 1, sampleStore, false) :=
  (set_noop_spec sampleStore 1 "k" "v" sampleData rfl).1 (by decide)

/--
C7: `get_remove` on a present key returns the deserialized removed value
and leaves the key absent from the record's data map afterward; on an
absent key it returns nothing and leaves the store unchanged.
-/
theorem get_remove_spec {α : Type} (deser : String → Option α) (store : Store)
    (sid : Uuid) (key : String) (d : AxumSessionData)
    (h : storeGet store sid = some d) :
    (∀ s, mapGet d.data key = some s →
      (get_remove deser store sid key).1 = deser s ∧
      storeGet (get_remove deser store sid key).2.1 sid =
        some { d with data := mapDrop d.data key } ∧
      mapGet (mapDrop d.data key) key = none) ∧
    (mapGet d.data key = none →
      get_remove deser store sid key = (none, store, false)) := by
  constructor
  · intro s hs
    unfold get_remove
    rw [tap_some store sid d _ h]
    simp only [mapRemove]
    refine ⟨by rw [hs]; rfl, ?_, mapGet_mapDrop_self d.data key⟩
    exact storeGet_storeSet_self store sid d _ h
  · intro hk
    unfold get_remove
    rw [tap_some store sid d _ h]
    simp only [mapRemove]
    rw [hk, mapDrop_of_mapGet_none d.data key hk]
    rw [show ({ d with data := d.data } : AxumSessionData) = d from rfl]
    rw [storeSet_self store sid d h]
    rfl

/--
C7 witness: removing the present key "k" from the sample store returns its
value and leaves the key absent; removing the absent key "x" changes
nothing.
-/
theorem get_remove_spec_witness :
    (get_remove some sampleStore 1 "k").1 = some "v" ∧
    get_remove some sampleStore 1 "x" = (none, sampleStore, false) :=
  ⟨((get_remove_spec some sampleStore 1 "k" sampleData rfl).1 "v" (by decide)).1,
   (get_remove_spec some sampleStore 1 "x" sampleData rfl).2 (by decide)⟩

/--
C8: every handle operation routed through `tap` on an id with no record in
the store's map returns the empty result, leaves the store unchanged, and
logs the warning — no error, no panic.
-/
theorem ops_on_missing_record {α : Type} (deser : String → Option α) (store : Store)
    (sid : Uuid) (key value : String) (lt st : Bool)
    (h : storeGet store sid = none) :
    get deser store sid key = (none, store, true) ∧
    get_remove deser store sid key = (none, store, true) ∧
    set store sid key value = (none, store, true) ∧
    remove store sid key = (none, store, true) ∧
    destroy store sid = (none, store, true) ∧
    set_longterm store sid lt = (none, store, true) ∧
    set_store store sid st = (none, store, true) :=
  ⟨tap_none store sid _ h, tap_none store sid _ h, tap_none store sid _ h,
   tap_none store sid _ h, tap_none store sid _ h, tap_none store sid _ h,
   tap_none store sid _ h⟩

/--
C8 witness: all seven operations on the empty store with id 42 yield the
empty result, the unchanged store, and the warning.
-/
theorem ops_on_missing_record_witness :
    get some ([] : Store) 42 "k" = (none, [], true) ∧
    get_remove some ([] : Store) 42 "k" = (none, [], true) ∧
    set ([] : Store) 42 "k" "v" = (none, [], true) ∧
    remove ([] : Store) 42 "k" = (none, [], true) ∧
    destroy ([] : Store) 42 = (none, [], true) ∧
    set_longterm ([] : Store) 42 true = (none, [], true) ∧
    set_store ([] : Store) 42 true = (none, [], true) :=
  ops_on_missing_record some [] 42 "k" "v" true true rfl

/--
C9: `destroy` only sets the destroy flag: the record stays present in the
store's map afterward and its data map and other flags are unchanged —
removal is deferred to response-emission time.
-/
theorem destroy_spec (store : Store) (sid : Uuid) (d : AxumSessionData)
    (h : storeGet store sid = some d) :
    destroy store sid = (some 1, storeSet store sid { d with destroy := true }, false) ∧
    storeGet (destroy store sid).2.1 sid = some { d with destroy := true } ∧
    ({ d with destroy := true } : AxumSessionData).data = d.data ∧
    ({ d with destroy := true } : AxumSessionData).update = d.update ∧
    ({ d with destroy := true } : AxumSessionData).storable = d.storable ∧
    ({ d with destroy := true } : AxumSessionData).longterm = d.longterm := by
  refine ⟨?_, ?_, rfl, rfl, rfl, rfl⟩
  · unfold destroy
    rw [tap_some store sid d _ h]
  · unfold destroy
    rw [tap_some store sid d _ h]
    exact storeGet_storeSet_self store sid d _ h

/--
C9 witness: destroying the sample session keeps its record resident with
only the destroy flag flipped.
-/
theorem destroy_spec_witness :
    storeGet (destroy sampleStore 1).2.1 1 = some { sampleData with destroy := true } :=
  (destroy_spec sampleStore 1 sampleData rfl).2.1

/--
C10: `get_remove` mutates the data map without touching the update (dirty)
flag, while `remove` always sets the update flag.
-/
theorem get_remove_keeps_update_remove_marks {α : Type} (deser : String → Option α)
    (store : Store) (sid : Uuid) (key : String) (d : AxumSessionData)
    (h : storeGet store sid = some d) :
    storeGet (get_remove deser store sid key).2.1 sid =
      some { d with data := mapDrop d.data key } ∧
    ({ d with data := mapDrop d.data key } : AxumSessionData).update = d.update ∧
    storeGet (remove store sid key).2.1 sid =
      some { d with update := true, data := mapDrop d.data key } ∧
    ({ d with update := true, data := mapDrop d.data key } : AxumSessionData).update
      = true := by
  refine ⟨?_, rfl, ?_, rfl⟩
  · unfold get_remove
    rw [tap_some store sid d _ h]
    exact storeGet_storeSet_self store sid d _ h
  · unfold remove
    rw [tap_some store sid d _ h]
    exact storeGet_storeSet_self store sid d _ h

/--
C10 witness: on the sample store, `get_remove` of "k" leaves the dirty
flag clear while `remove` of "k" sets it.
-/
theorem get_remove_keeps_update_remove_marks_witness :
    storeGet (get_remove some sampleStore 1 "k").2.1 1 =
      some { sampleData with data := mapDrop sampleData.data "k" } ∧
    ({ sampleData with data := mapDrop sampleData.data "k" } : AxumSessionData).update
      = false ∧
    storeGet (remove sampleStore 1 "k").2.1 1 =
      some { sampleData with update := true, data := mapDrop sampleData.data "k" } :=
  ⟨(get_remove_keeps_update_remove_marks some sampleStore 1 "k" sampleData rfl).1,
   (get_remove_keeps_update_remove_marks some sampleStore 1 "k" sampleData rfl).2.1,
   (get_remove_keeps_update_remove_marks some sampleStore 1 "k" sampleData rfl).2.2.1⟩

/--
C2: for every configuration and every combination of
(destroy, opt-in, storable) and security mode, `set_headers` realises the
spec's emission decision table per field.  Cookie variant: the jar gets
exactly the Key, Data and Store cookies, created precisely when the
table's Data/Key resp. Store column says CREATE (Key created only under
PerSession; under Simple it is always a tombstone) and tombstoned
otherwise, where a tombstone has empty value, no configured expiry,
same-site relaxed to `None` regardless of policy, domain preserved, and
immediate removal expiry.  Header variant: a header is emitted exactly
when the table says CREATE (Key only under PerSession), and a REMOVE is
simply not emitted.
-/
theorem set_headers_decision_table (config : SessionConfig)
    (session_id session_key_id : String) (session_key_key : List Nat)
    (destroy storable : Bool) (now : Nat)
    (nonce_key nonce_data nonce_store : List Nat) :
    (set_headers_cookies config session_id session_key_id session_key_key destroy
        storable now =
      [(match config.security_mode with
        | SecurityMode.PerSession =>
          if specEmitDataKey destroy config.session_mode.is_opt_in storable then
            (create_cookie config session_key_id NameType.Key now, config.key)
          else (remove_cookie config NameType.Key, config.key)
        | SecurityMode.Simple => (remove_cookie config NameType.Key, config.key)),
       (if specEmitDataKey destroy config.session_mode.is_opt_in storable then
          (create_cookie config session_id NameType.Data now,
           match config.security_mode with
           | SecurityMode.PerSession => some session_key_key
           | SecurityMode.Simple => config.key)
        else
          (remove_cookie config NameType.Data,
           match config.security_mode with
           | SecurityMode.PerSession => some session_key_key
           | SecurityMode.Simple => config.key)),
       (if specEmitStore destroy config.session_mode.is_opt_in storable then
          (create_cookie config (boolString storable) NameType.Store now,
           match config.security_mode with
           | SecurityMode.PerSession => some session_key_key
           | SecurityMode.Simple => config.key)
        else
          (remove_cookie config NameType.Store,
           match config.security_mode with
           | SecurityMode.PerSession => some session_key_key
           | SecurityMode.Simple => config.key))]) ∧
    (set_headers_rest config session_id session_key_id session_key_key destroy
        storable nonce_key nonce_data nonce_store =
      (if config.security_mode = SecurityMode.PerSession ∧
          specEmitDataKey destroy config.session_mode.is_opt_in storable = true then
        [(NameType.Key.get_name config,
          match config.key with
          | some key => encrypt (NameType.Key.get_name config) session_key_id key nonce_key
          | none => session_key_id)]
       else []) ++
      (if specEmitDataKey destroy config.session_mode.is_opt_in storable = true then
        [(NameType.Data.get_name config,
          match (match config.security_mode with
                 | SecurityMode.PerSession => some session_key_key
                 | SecurityMode.Simple => config.key) with
          | some key => encrypt (NameType.Data.get_name config) session_id key nonce_data
          | none => session_id)]
       else []) ++
      (if specEmitStore destroy config.session_mode.is_opt_in storable = true then
        [(NameType.Store.get_name config,
          match (match config.security_mode with
                 | SecurityMode.PerSession => some session_key_key
                 | SecurityMode.Simple => config.key) with
          | some key =>
            encrypt (NameType.Store.get_name config) (boolString storable) key nonce_store
          | none => boolString storable)]
       else [])) ∧
    (∀ t : NameType,
      (remove_cookie config t).value = "" ∧
      (remove_cookie config t).same_site = SameSite.None ∧
      (remove_cookie config t).domain = config.cookie_domain ∧
      (remove_cookie config t).expires = none ∧
      (remove_cookie config t).removal = true) := by
  refine ⟨?_, ?_, fun t => ⟨rfl, rfl, rfl, rfl, rfl⟩⟩ <;>
  · rcases config with ⟨sn, stn, kn, hl, cp, cs, cho, css, cd, cma, sm, ⟨oi⟩, ck⟩
    cases sm <;> cases destroy <;> cases storable <;> cases oi <;>
      simp [set_headers_cookies, set_headers_rest, specEmitDataKey, specEmitStore]

end AxumSession
